import Mathlib

/-!
# Universal Agent Memory - verification of the adaptive context core

A shallow embedding of the hybrid adaptive context system of
`src/harbor/uam_agent.py` (task classification, time-pressure assessment,
historical-benefit lookup, section selection, overhead calculation, the
priority-ordered decision engine, progressive escalation, and the
execution loop's success observation) and of the tiered command extractor
of `src/uam_harbor/supergenius_agent.py`.

Python floats are modelled as rationals (`ℚ`), Python strings as `String`,
Python lists and dict literals as `List`s and association lists.
-/

/-! ## String helpers (Python string primitives) -/

/-- Occurrence of `pat` as a contiguous sublist of the second argument:
Python's `pat in hay` on character data. -/
def containsAux (pat : List Char) : List Char → Bool
  | [] => pat.isEmpty
  | c :: t => pat.isPrefixOf (c :: t) || containsAux pat t

/-- Python `pat in hay` for strings. -/
def pyContains (hay pat : String) : Bool := containsAux pat.data hay.data

/-- Python `s.lower()` (the agent only lowercases ASCII text). -/
def pyLower (s : String) : String := ⟨s.data.map Char.toLower⟩

/-- ASCII whitespace as recognized by Python `str.strip()` and the regex
class `\s`: space, tab, newline, carriage return, vertical tab, form feed. -/
def isPySpace (c : Char) : Bool :=
  c == ' ' || c == '\t' || c == '\n' || c == '\r' || c == Char.ofNat 11 || c == Char.ofNat 12

/-- Python `s.strip()` on character data. -/
def pyStripChars (l : List Char) : List Char :=
  ((l.dropWhile isPySpace).reverse.dropWhile isPySpace).reverse

/-- Python `s.strip()` for strings. -/
def pyStrip (s : String) : String := ⟨pyStripChars s.data⟩

/-- Python `s.split(String.mk [newline])`: split on newline, keeping empty pieces. -/
def splitNl : List Char → List (List Char)
  | [] => [[]]
  | c :: t =>
    if c == '\n' then [] :: splitNl t
    else
      match splitNl t with
      | [] => [[c]]
      | h :: r => (c :: h) :: r

/-- Python `dict.get(k, d)` on an association list written in insertion
order (all dict literals in the source have distinct keys). -/
def lookupD : List (String × ℚ) → String → ℚ → ℚ
  | [], _, d => d
  | p :: t, k, d => if p.1 == k then p.2 else lookupD t k d

/-- `dict.get` for the natural-number token counts of `CONTEXT_SECTIONS`. -/
def lookupTokens : List (String × ℕ) → String → ℕ
  | [], _ => 0
  | p :: t, k => if p.1 == k then p.2 else lookupTokens t k

/-! ## Static tables of `uam_agent.py` -/

/-- Task categories that do not benefit from UAM context (pure reasoning). -/
def LOW_BENEFIT_CATEGORIES : List String :=
  ["reasoning", "scheduling", "constraint-satisfaction", "games", "pure-logic", "mathematical"]

/-- Keywords marking pure-reasoning tasks to be classified away from UAM. -/
def SKIP_UAM_KEYWORDS : List String :=
  ["schedule", "scheduling", "calendar", "meeting",
   "constraint", "satisfy", "optimize",
   "chess move", "best move", "game theory",
   "mathematical proof", "prove that", "logic puzzle"]

/-- Keywords marking tasks with historically high UAM benefit. -/
def HIGH_BENEFIT_KEYWORDS : List String :=
  ["password", "hash", "crack", "decrypt",
   "elf", "binary", "executable", "extract",
   "xss", "injection", "sanitize", "filter",
   "sqlite", "database", "recovery", "wal",
   "compile", "build", "makefile",
   "cobol", "modernize", "legacy"]

/-- The token counts of `CONTEXT_SECTIONS` (the `content` strings are data,
not logic, and are irrelevant to every claim). -/
def CONTEXT_SECTION_TOKENS : List (String × ℕ) :=
  [("security", 150), ("file_formats", 120), ("coding", 80),
   ("tools", 100), ("legacy", 90), ("ml", 100)]

/-- Historical benefit table `HISTORICAL_BENEFIT` (floats as rationals). -/
def HISTORICAL_BENEFIT : List (String × ℚ) :=
  [("security", 8/10), ("file-ops", 7/10), ("legacy", 6/10),
   ("coding", 4/10), ("debugging", 5/10), ("scheduling", 5/100),
   ("games", 5/100), ("constraint-satisfaction", 5/100),
   ("pure-logic", 5/100), ("reasoning", 5/100), ("general", 3/10)]

/-! ## `HybridAdaptiveContext` -/

/-- `HybridAdaptiveContext.classify_task`: ordered keyword classification.
The Python `for kw in KEYWORDS: if kw in lower: <inner checks>` loops run
inner checks that do not depend on `kw`, so each loop is equivalent to a
single guarded check of "any keyword matches". -/
def classify_task (instruction : String) : String :=
  let lower := pyLower instruction
  if SKIP_UAM_KEYWORDS.any (fun kw => pyContains lower kw) then
    if pyContains lower "schedule" || pyContains lower "calendar" || pyContains lower "meeting" then
      "scheduling"
    else if pyContains lower "chess" || pyContains lower "game" || pyContains lower "move" then
      "games"
    else if pyContains lower "constraint" || pyContains lower "satisfy" then
      "constraint-satisfaction"
    else if pyContains lower "prove" || pyContains lower "proof" || pyContains lower "logic" then
      "pure-logic"
    else
      "reasoning"
  else if HIGH_BENEFIT_KEYWORDS.any (fun kw => pyContains lower kw) then
    if ["password", "hash", "crack", "xss", "injection", "sanitize", "secret"].any
        (fun k => pyContains lower k) then
      "security"
    else if ["elf", "sqlite", "binary", "extract"].any (fun k => pyContains lower k) then
      "file-ops"
    else if ["cobol", "legacy", "modernize"].any (fun k => pyContains lower k) then
      "legacy"
    else
      "general"
  else
    "general"

/-- `HybridAdaptiveContext.assess_time_pressure`. -/
def assess_time_pressure (timeout_sec : ℚ) (task_type : String) (difficulty : String) : String :=
  let difficulty_mult := lookupD [("easy", 1/2), ("medium", 1), ("hard", 2)] difficulty 1
  let base_duration := lookupD
    [("security", 120), ("file-ops", 90), ("legacy", 150), ("coding", 60),
     ("debugging", 90), ("scheduling", 45), ("games", 30),
     ("constraint-satisfaction", 60), ("pure-logic", 90),
     ("reasoning", 60), ("general", 60)] task_type 60
  let expected := base_duration * difficulty_mult
  let ratio := timeout_sec / expected
  if ratio < 12/10 then "critical"
  else if ratio < 15/10 then "high"
  else if ratio < 2 then "medium"
  else "low"

/-- `HybridAdaptiveContext.get_historical_benefit`. -/
def get_historical_benefit (task_type : String) : ℚ :=
  lookupD HISTORICAL_BENEFIT task_type (3/10)

/-- The `section_keywords` dict literal of `select_relevant_sections`. -/
def section_keywords : List (String × List String) :=
  [("security", ["xss", "password", "hash", "crack", "secret", "exploit", "injection", "sanitize"]),
   ("file_formats", ["elf", "sqlite", "7z", "archive", "binary", "extract", "format"]),
   ("coding", ["implement", "function", "class", "refactor", "algorithm", "code"]),
   ("tools", ["hashcat", "john", "strings", "objdump", "readelf", "command", "cli"]),
   ("legacy", ["cobol", "fortran", "legacy", "modernize", "mainframe"])]

/-- `HybridAdaptiveContext.select_relevant_sections`: keyword-matched
sections in table order, then category-default sections appended when
absent (in the source's order: security, file_formats, legacy). -/
def select_relevant_sections (instruction : String) (task_type : String) : List String :=
  let lower := pyLower instruction
  let sections :=
    (section_keywords.filter (fun p => p.2.any (fun kw => pyContains lower kw))).map Prod.fst
  let s1 := if task_type = "security" && !(sections.contains "security")
    then sections ++ ["security"] else sections
  let s2 := if task_type = "file-ops" && !(s1.contains "file_formats")
    then s1 ++ ["file_formats"] else s1
  let s3 := if task_type = "legacy" && !(s2.contains "legacy")
    then s2 ++ ["legacy"] else s2
  s3

/-- `HybridAdaptiveContext.calculate_overhead`: token total times 4 ms per token. -/
def calculate_overhead (sections : List String) : ℕ :=
  let ms_per_token := 4
  let total_tokens := (sections.map (fun s => lookupTokens CONTEXT_SECTION_TOKENS s)).sum
  total_tokens * ms_per_token

/-- The `ContextDecision` dataclass. -/
structure ContextDecision where
  level : String
  sections : List String
  reason : String
  estimated_overhead_ms : ℕ
  task_type : String
  time_pressure : String
  historical_benefit : ℚ
deriving Repr, DecidableEq

/-- `HybridAdaptiveContext.decide_context_level`: the priority-ordered rule
chain. The numeric interpolation inside the low-benefit reason f-string is
elided (no claim concerns it); the rest of each reason string is kept. -/
def decide_context_level (instruction : String) (timeout_sec : ℚ) (difficulty : String) :
    ContextDecision :=
  let task_type := classify_task instruction
  if task_type ∈ LOW_BENEFIT_CATEGORIES then
    { level := "none"
      sections := []
      reason := "Task type \x27" ++ task_type ++ "\x27 is pure reasoning - UAM adds no benefit"
      estimated_overhead_ms := 0
      task_type := task_type
      time_pressure := "low"
      historical_benefit := 0 }
  else
    let time_pressure := assess_time_pressure timeout_sec task_type difficulty
    let historical_benefit := get_historical_benefit task_type
    if historical_benefit < 1/10 then
      { level := "none"
        sections := []
        reason := "Low historical benefit for " ++ task_type
        estimated_overhead_ms := 0
        task_type := task_type
        time_pressure := time_pressure
        historical_benefit := historical_benefit }
    else if time_pressure = "critical" then
      { level := "none"
        sections := []
        reason := "Critical time pressure - skipping UAM to avoid timeout"
        estimated_overhead_ms := 0
        task_type := task_type
        time_pressure := time_pressure
        historical_benefit := historical_benefit }
    else
      let sections := select_relevant_sections instruction task_type
      let overhead := calculate_overhead sections
      let overhead_ratio := (overhead : ℚ) / (timeout_sec * 1000)
      if time_pressure = "high" || overhead_ratio > 1/10 then
        let minimal_sections := if sections.isEmpty then ["coding"] else sections.take 1
        { level := "minimal"
          sections := minimal_sections
          reason := "High time pressure - using minimal context"
          estimated_overhead_ms := calculate_overhead minimal_sections
          task_type := task_type
          time_pressure := time_pressure
          historical_benefit := historical_benefit }
      else
        { level := "full"
          sections := if sections.isEmpty then ["coding"] else sections
          reason := "Full context for " ++ task_type ++ " task (" ++ time_pressure ++ " pressure)"
          estimated_overhead_ms := overhead
          task_type := task_type
          time_pressure := time_pressure
          historical_benefit := historical_benefit }

/-- The "context might help" error markers of `get_progressive_levels`. -/
def CONTEXT_MIGHT_HELP_KEYWORDS : List String :=
  ["unknown", "how to", "what is", "command not found", "invalid syntax", "format", "parse"]

/-- `HybridAdaptiveContext.get_progressive_levels`: recomputes the decision
with the source's default arguments (timeout 300 s, difficulty medium). -/
def get_progressive_levels (instruction : String) (error : String) : List String :=
  let decision := decide_context_level instruction 300 "medium"
  if decision.task_type ∈ LOW_BENEFIT_CATEGORIES then ["none"]
  else
    let error_lower := pyLower error
    let context_might_help := CONTEXT_MIGHT_HELP_KEYWORDS.any (fun kw => pyContains error_lower kw)
    if !context_might_help then [decision.level]
    else if decision.level = "none" then ["none", "minimal", "full"]
    else if decision.level = "minimal" then ["minimal", "full"]
    else ["full"]

/-! ## The run loop of `UAMAgent` (escalation state and observation) -/

/-- The ordinal sequence of context levels, as the list the loop indexes into. -/
def LEVEL_ORDER : List String := ["none", "minimal", "full"]

/-- Position of a level in the ordinal sequence none < minimal < full. -/
def levelIndex (level : String) : ℕ := LEVEL_ORDER.indexOf level

/-- The escalation block at the top of each retry iteration of `UAMAgent.run`:
when the progressive list has more than one element, move to its first
element strictly above the current level, otherwise keep the current level. -/
def escalate_step (instruction : String) (prev_error : String) (current : String) : String :=
  let progressive_levels := get_progressive_levels instruction prev_error
  if 1 < progressive_levels.length then
    let current_idx := levelIndex current
    match progressive_levels.filter (fun l => decide (current_idx < levelIndex l)) with
    | [] => current
    | n :: _ => n
  else current

/-- One turn's effect on `current_context_level`: the escalation block runs
only when the previous turn left a non-empty error excerpt. -/
def turn_step (instruction : String) (current : String) (prev_error : String) : String :=
  if prev_error.isEmpty then current else escalate_step instruction prev_error current

/-- The context level reached after the given sequence of per-turn error
excerpts, starting from the initial decision made by `UAMAgent.run` with the
agent's timeout and the defaulted difficulty. -/
def run_level (instruction : String) (timeout_sec : ℚ) (errors : List String) : String :=
  errors.foldl (turn_step instruction) (decide_context_level instruction timeout_sec "medium").level

/-- The `error_patterns` list of `UAMAgent._looks_like_error`. -/
def error_patterns : List String :=
  ["error:", "Error:", "ERROR:",
   "failed", "Failed", "FAILED",
   "Traceback (most recent call last)",
   "command not found",
   "No such file or directory"]

/-- `UAMAgent._looks_like_error`: case-sensitive substring scan. -/
def looks_like_error (output : String) : Bool :=
  error_patterns.any (fun p => pyContains output p)

/-- The success test of `UAMAgent.run`:
`result.exit_code == 0 and not self._looks_like_error(result.stdout)`.
The turn's stderr is part of the observation but is not examined here. -/
def observe_success (exit_code : ℤ) (stdout : String) (stderr : String) : Bool :=
  exit_code == 0 && !looks_like_error stdout

/-! ## `SuperGeniusAgent._extract_bash_commands` -/

/-- Split at the first occurrence of `pat`, returning the text before it and
the text after it (the scanning core of `re.findall` with a literal). -/
def splitFirst (pat : List Char) : List Char → Option (List Char × List Char)
  | [] => none
  | c :: t =>
    if pat.isPrefixOf (c :: t) then some ([], (c :: t).drop pat.length)
    else
      match splitFirst pat t with
      | some (a, b) => some (c :: a, b)
      | none => none

def openTag : List Char := "<bash>".data
def closeTag : List Char := "</bash>".data

/-- Pattern 0, the blocks matched by `<bash>` regex extraction with lazy
content and whitespace absorption on both sides: each match is the text
between a `<bash>` and the first following `</bash>`, stripped. Recursion is
bounded by a character budget; every iteration consumes the closing tag, so
a budget of the text's length is never exhausted. -/
def xmlBlocksAux : ℕ → List Char → List (List Char)
  | 0, _ => []
  | fuel + 1, l =>
    match splitFirst openTag l with
    | none => []
    | some (_, rest1) =>
      match splitFirst closeTag rest1 with
      | none => []
      | some (content, rest2) => pyStripChars content :: xmlBlocksAux fuel rest2

/-- The `<bash>`-delimited blocks of a response text. -/
def xmlBlocks (l : List Char) : List (List Char) := xmlBlocksAux l.length l

def eofToken : List Char := "EOF".data

/-- Processing of one stripped `<bash>` block: heredoc-style or single-line
blocks are one atomic command; otherwise lines are stripped and comment or
empty lines dropped. -/
def processXmlBlock (block : List Char) : List (List Char) :=
  let b := pyStripChars block
  if b.isEmpty then []
  else if containsAux eofToken b || !(b.any (fun c => c == '\n')) then [b]
  else
    (splitNl b).filterMap (fun line =>
      let s := pyStripChars line
      if s.isEmpty then none
      else if ['#'].isPrefixOf s then none
      else some s)

def fenceMarker : List Char := "```".data
def bashWord : List Char := "bash".data
def shWord : List Char := "sh".data

/-- Pattern 1, fenced code blocks: the regex scans forward one character at
a time; at a triple backtick it optionally consumes a `bash` or `sh` tag,
requires a newline, and takes the lazy content up to the next triple
backtick, resuming after it (the fuel of the text's length covers the
one-character advances). -/
def fenceBlocksAux : ℕ → List Char → List (List Char)
  | 0, _ => []
  | fuel + 1, l =>
    match l with
    | [] => []
    | c :: t =>
      if fenceMarker.isPrefixOf (c :: t) then
        let after := (c :: t).drop 3
        let after2 :=
          if bashWord.isPrefixOf after then after.drop 4
          else if shWord.isPrefixOf after then after.drop 2
          else after
        match after2 with
        | '\n' :: body =>
          match splitFirst fenceMarker body with
          | some (content, rest) => content :: fenceBlocksAux fuel rest
          | none => fenceBlocksAux fuel t
        | _ => fenceBlocksAux fuel t
      else fenceBlocksAux fuel t

/-- The fenced code blocks of a response text. -/
def fenceBlocks (l : List Char) : List (List Char) := fenceBlocksAux l.length l

/-- Processing of one fenced block: strip, split lines, drop empty and
comment lines, strip one leading dollar-space prompt marker. -/
def processFenceBlock (block : List Char) : List (List Char) :=
  (splitNl (pyStripChars block)).filterMap (fun line =>
    let s := pyStripChars line
    if s.isEmpty then none
    else if ['#'].isPrefixOf s then none
    else if ['$', ' '].isPrefixOf s then some (s.drop 2)
    else some s)

/-- Pattern 2: raw lines starting with a dollar-space prompt marker. -/
def dollarCommands (text : List Char) : List (List Char) :=
  (splitNl text).filterMap (fun line =>
    let s := pyStripChars line
    if ['$', ' '].isPrefixOf s then some (s.drop 2) else none)

/-- `SuperGeniusAgent._extract_bash_commands`: tiered first-match-wins parsing. -/
def extract_bash_commands (text : String) : List String :=
  let tier0 := ((xmlBlocks text.data).map processXmlBlock).flatten
  if !tier0.isEmpty then tier0.map (fun l => (⟨l⟩ : String))
  else
    let tier1 := ((fenceBlocks text.data).map processFenceBlock).flatten
    if !tier1.isEmpty then tier1.map (fun l => (⟨l⟩ : String))
    else (dollarCommands text.data).map (fun l => (⟨l⟩ : String))

/-! ## Definitions written from the spec's words (for refinement claims) -/

/-- Modelled from the spec: the fixed threshold ladder of section 4.2,
evaluated in this exact order. -/
def pressure_ladder (ratio : ℚ) : String :=
  if ratio < 12/10 then "critical"
  else if ratio < 15/10 then "high"
  else if ratio < 2 then "medium"
  else "low"

/-- Modelled from the spec: `baseDuration[category]` with default 60 s. -/
def base_duration_of (category : String) : ℚ :=
  lookupD
    [("security", 120), ("file-ops", 90), ("legacy", 150), ("coding", 60),
     ("debugging", 90), ("scheduling", 45), ("games", 30),
     ("constraint-satisfaction", 60), ("pure-logic", 90),
     ("reasoning", 60), ("general", 60)] category 60

/-- Modelled from the spec: `difficultyMultiplier[difficulty]` with default 1.0. -/
def difficulty_mult_of (difficulty : String) : ℚ :=
  lookupD [("easy", 1/2), ("medium", 1), ("hard", 2)] difficulty 1

/-- The categories with an entry in the base-duration table. -/
def BASE_DURATION_KEYS : List String :=
  ["security", "file-ops", "legacy", "coding", "debugging", "scheduling",
   "games", "constraint-satisfaction", "pure-logic", "reasoning", "general"]

/-- All strings `classify_task` can return. -/
def CLASSIFY_OUTPUTS : List String :=
  ["scheduling", "games", "constraint-satisfaction", "pure-logic", "reasoning",
   "security", "file-ops", "legacy", "general"]

/-- The section ids that `select_relevant_sections` can emit. -/
def SECTION_IDS : List String :=
  ["security", "file_formats", "coding", "tools", "legacy"]

/-- One-step advance along the ordinal sequence none, minimal, full, with
full terminal, as claim C7 words the escalation contract. -/
def advance_one (level : String) : String :=
  if level = "none" then "minimal"
  else if level = "minimal" then "full"
  else level

/-- The marker test of the escalation controller (case-insensitive scan of
the error text for the "context might help" keywords). -/
def has_help_marker (error : String) : Bool :=
  CONTEXT_MIGHT_HELP_KEYWORDS.any (fun kw => pyContains (pyLower error) kw)

/-! ## Helper lemmas -/

theorem lookupD_default (tbl : List (String × ℚ)) (k : String) (d : ℚ)
    (h : ∀ p ∈ tbl, p.1 ≠ k) : lookupD tbl k d = d := by
  induction tbl with
  | nil => rfl
  | cons p t ih =>
    simp only [lookupD]
    rw [if_neg, ih]
    · intro q hq; exact h q (List.mem_cons_of_mem p hq)
    · simp only [beq_iff_eq]
      exact h p (List.mem_cons_self p t)

theorem lookupTokens_le (tbl : List (String × ℕ)) (k : String) (n : ℕ)
    (h : ∀ p ∈ tbl, p.2 ≤ n) : lookupTokens tbl k ≤ n := by
  induction tbl with
  | nil => exact Nat.zero_le n
  | cons p t ih =>
    simp only [lookupTokens]
    split
    · exact h p (List.mem_cons_self p t)
    · exact ih fun q hq => h q (List.mem_cons_of_mem p hq)

theorem classify_task_mem (instr : String) : classify_task instr ∈ CLASSIFY_OUTPUTS := by
  simp only [classify_task]
  repeat' split
  all_goals decide

theorem decide_task_type (instr : String) (t : ℚ) (d : String) :
    (decide_context_level instr t d).task_type = classify_task instr := by
  simp only [decide_context_level]
  repeat' split
  all_goals rfl

theorem decide_level_mem (instr : String) (t : ℚ) (d : String) :
    (decide_context_level instr t d).level ∈ LEVEL_ORDER := by
  simp only [decide_context_level]
  repeat' split
  all_goals simp [LEVEL_ORDER]

theorem decide_low (instr : String) (t : ℚ) (d : String)
    (h : classify_task instr ∈ LOW_BENEFIT_CATEGORIES) :
    decide_context_level instr t d =
      { level := "none"
        sections := []
        reason := "Task type \x27" ++ classify_task instr ++
          "\x27 is pure reasoning - UAM adds no benefit"
        estimated_overhead_ms := 0
        task_type := classify_task instr
        time_pressure := "low"
        historical_benefit := 0 } := by
  simp only [decide_context_level, if_pos h]

theorem append_step {l : List String} {x : String} (b : Bool)
    (hn : l.Nodup) (hs : l ⊆ SECTION_IDS) (hx : x ∈ SECTION_IDS) :
    (if b && !(l.contains x) then l ++ [x] else l).Nodup ∧
      (if b && !(l.contains x) then l ++ [x] else l) ⊆ SECTION_IDS := by
  split
  case isTrue h =>
    simp only [Bool.and_eq_true, Bool.not_eq_true'] at h
    have hxl : x ∉ l := by simpa using h.2
    refine ⟨?_, ?_⟩
    · simp [List.nodup_append, hn, hxl]
    · intro y hy
      rcases List.mem_append.mp hy with h1 | h1
      · exact hs h1
      · rw [List.mem_singleton.mp h1]; exact hx
  case isFalse _ => exact ⟨hn, hs⟩

theorem select_nodup_subset (instr c : String) :
    (select_relevant_sections instr c).Nodup ∧ select_relevant_sections instr c ⊆ SECTION_IDS := by
  simp only [select_relevant_sections]
  have hbase : ((section_keywords.filter
      (fun p => p.2.any (fun kw => pyContains (pyLower instr) kw))).map Prod.fst).Sublist
      SECTION_IDS := by
    have h1 := List.filter_sublist
      (p := fun p => p.2.any (fun kw => pyContains (pyLower instr) kw)) section_keywords
    exact h1.map Prod.fst
  have h0 : ((section_keywords.filter
      (fun p => p.2.any (fun kw => pyContains (pyLower instr) kw))).map Prod.fst).Nodup :=
    List.Nodup.sublist hbase (by decide)
  have h1 := append_step (decide (c = "security")) h0 hbase.subset
    (show "security" ∈ SECTION_IDS by decide)
  have h2 := append_step (decide (c = "file-ops")) h1.1 h1.2
    (show "file_formats" ∈ SECTION_IDS by decide)
  have h3 := append_step (decide (c = "legacy")) h2.1 h2.2
    (show "legacy" ∈ SECTION_IDS by decide)
  exact h3

theorem calculate_overhead_le (l : List String) (hn : l.Nodup) (hs : l ⊆ SECTION_IDS) :
    calculate_overhead l ≤ 3000 := by
  have hlen : l.length ≤ 5 := by
    have h := (hn.subperm hs).length_le
    simpa [SECTION_IDS] using h
  have htok : ∀ x ∈ l.map (fun s => lookupTokens CONTEXT_SECTION_TOKENS s), x ≤ 150 := by
    intro x hx
    rcases List.mem_map.mp hx with ⟨s, _, rfl⟩
    exact lookupTokens_le _ _ _ (by decide)
  have hsum := List.sum_le_card_nsmul
    (l.map fun s => lookupTokens CONTEXT_SECTION_TOKENS s) 150 htok
  simp only [List.length_map, smul_eq_mul] at hsum
  simp only [calculate_overhead]
  have : l.length * 150 ≤ 750 := by omega
  omega

theorem classify_nonlow (instr : String) (h : classify_task instr ∉ LOW_BENEFIT_CATEGORIES) :
    classify_task instr ∈ ["security", "file-ops", "legacy", "general"] := by
  have hm := classify_task_mem instr
  simp only [CLASSIFY_OUTPUTS, List.mem_cons, List.not_mem_nil, or_false] at hm
  rcases hm with h1 | h1 | h1 | h1 | h1 | h1 | h1 | h1 | h1 <;> rw [h1] at h ⊢ <;>
    first
    | decide
    | exact absurd (by decide) h

theorem benefit_not_low (c : String) (hc : c ∈ ["security", "file-ops", "legacy", "general"]) :
    ¬ get_historical_benefit c < 1/10 := by
  fin_cases hc <;>
    (simp only [get_historical_benefit, HISTORICAL_BENEFIT, lookupD, String.reduceBEq, reduceIte]
     norm_num)

theorem assess_default_low (c : String) (hc : c ∈ ["security", "file-ops", "legacy", "general"]) :
    assess_time_pressure 300 c "medium" = "low" := by
  fin_cases hc <;>
    (simp only [assess_time_pressure, lookupD, String.reduceBEq, reduceIte]
     norm_num)

theorem decide_default_full (instr : String)
    (h : classify_task instr ∉ LOW_BENEFIT_CATEGORIES) :
    (decide_context_level instr 300 "medium").level = "full" := by
  have hc4 := classify_nonlow instr h
  have hb := benefit_not_low _ hc4
  have hp := assess_default_low _ hc4
  have hsel := select_nodup_subset instr (classify_task instr)
  have hov : ¬ ((calculate_overhead (select_relevant_sections instr (classify_task instr)) : ℚ) /
      ((300 : ℚ) * 1000) > 1/10) := by
    have h1 := calculate_overhead_le _ hsel.1 hsel.2
    have h2 : ((calculate_overhead (select_relevant_sections instr (classify_task instr)) : ℕ) : ℚ)
        ≤ 3000 := by exact_mod_cast h1
    rw [not_lt]
    calc (calculate_overhead (select_relevant_sections instr (classify_task instr)) : ℚ) /
          ((300 : ℚ) * 1000) ≤ 3000 / ((300 : ℚ) * 1000) := by gcongr
      _ ≤ 1/10 := by norm_num
  simp only [decide_context_level, if_neg h]
  rw [hp]
  rw [if_neg hb]
  rw [if_neg (show ¬ ("low" : String) = "critical" by decide)]
  rw [decide_eq_false (show ¬ ("low" : String) = "high" by decide), decide_eq_false hov]
  rw [if_neg (by simp)]

theorem progressive_levels_eq (instr err : String) :
    get_progressive_levels instr err =
      if classify_task instr ∈ LOW_BENEFIT_CATEGORIES then ["none"] else ["full"] := by
  by_cases h : classify_task instr ∈ LOW_BENEFIT_CATEGORIES
  · simp only [get_progressive_levels, decide_task_type, if_pos h]
  · have hf := decide_default_full instr h
    simp only [get_progressive_levels, decide_task_type, if_neg h, hf]
    split <;> simp

theorem escalate_step_eq (instr err cur : String) : escalate_step instr err cur = cur := by
  simp only [escalate_step, progressive_levels_eq]
  by_cases h : classify_task instr ∈ LOW_BENEFIT_CATEGORIES <;> simp [h]

theorem turn_step_eq (instr cur err : String) : turn_step instr cur err = cur := by
  simp [turn_step, escalate_step_eq]

theorem run_level_eq (instr : String) (t : ℚ) (errors : List String) :
    run_level instr t errors = (decide_context_level instr t "medium").level := by
  induction errors with
  | nil => rfl
  | cons e es ih =>
    simp only [run_level, List.foldl_cons, turn_step_eq] at ih ⊢
    exact ih

/-! ## Claim theorems -/

/-- Claim C1: every instruction whose classified category lies in the
low-benefit set takes Rule 1 of decide_context_level - level "none", empty
sections, a reason citing the pure-reasoning exemption - and Rule 1 dominates
the later rules: an instruction matching a low-benefit (skip) keyword always
classifies into the low-benefit set, regardless of any high-benefit keyword
it may also match. -/
theorem claim_C1_rule1_dominates (instr : String) (t : ℚ) (d : String) :
    (SKIP_UAM_KEYWORDS.any (fun kw => pyContains (pyLower instr) kw) = true →
      classify_task instr ∈ LOW_BENEFIT_CATEGORIES) ∧
    (classify_task instr ∈ LOW_BENEFIT_CATEGORIES →
      (decide_context_level instr t d).level = "none" ∧
      (decide_context_level instr t d).sections = [] ∧
      pyContains (decide_context_level instr t d).reason "pure reasoning" = true) := by
  constructor
  · intro hskip
    simp only [classify_task]
    rw [if_pos hskip]
    repeat' split
    all_goals decide
  · intro hlow
    rw [decide_low instr t d hlow]
    refine ⟨rfl, rfl, ?_⟩
    have hm := classify_task_mem instr
    simp only [CLASSIFY_OUTPUTS, List.mem_cons, List.not_mem_nil, or_false] at hm
    rcases hm with h1 | h1 | h1 | h1 | h1 | h1 | h1 | h1 | h1 <;> rw [h1] <;> decide

/-- Witness for C1 at an instruction matching both a skip keyword and
high-benefit keywords. -/
theorem claim_C1_witness :
    (classify_task "schedule the password hash cracking" ∈ LOW_BENEFIT_CATEGORIES) ∧
    ((decide_context_level "schedule the password hash cracking" 300 "medium").level = "none" ∧
      (decide_context_level "schedule the password hash cracking" 300 "medium").sections = [] ∧
      pyContains (decide_context_level "schedule the password hash cracking" 300 "medium").reason
        "pure reasoning" = true) :=
  ⟨(claim_C1_rule1_dominates "schedule the password hash cracking" 300 "medium").1 (by decide),
   (claim_C1_rule1_dominates "schedule the password hash cracking" 300 "medium").2 (by decide)⟩

/-- Claim C2: whenever decide_context_level returns level "none", the decision
carries an empty section list and zero estimated overhead. -/
theorem claim_C2_none_invariant (instr : String) (t : ℚ) (d : String) :
    (decide_context_level instr t d).level = "none" →
      (decide_context_level instr t d).sections = [] ∧
      (decide_context_level instr t d).estimated_overhead_ms = 0 := by
  simp only [decide_context_level]
  repeat' split
  all_goals intro h
  all_goals simp_all

/-- Witness for C2 at a concrete low-benefit instruction. -/
theorem claim_C2_witness :
    (decide_context_level "schedule a meeting" 300 "medium").sections = [] ∧
    (decide_context_level "schedule a meeting" 300 "medium").estimated_overhead_ms = 0 :=
  claim_C2_none_invariant "schedule a meeting" 300 "medium" (by decide)

/-- Claim C5: across a single task run the current context level is
non-decreasing turn over turn in the ordinal sequence none < minimal < full,
and never exceeds full (ordinal position at most 2). -/
theorem claim_C5_monotonic_level (instr : String) (t : ℚ) (errors : List String) (e : String) :
    levelIndex (run_level instr t errors) ≤ levelIndex (run_level instr t (errors ++ [e])) ∧
    levelIndex (run_level instr t errors) ≤ 2 := by
  constructor
  · rw [run_level_eq, run_level_eq]
  · rw [run_level_eq]
    have hm := decide_level_mem instr t "medium"
    simp only [LEVEL_ORDER, List.mem_cons, List.not_mem_nil, or_false] at hm
    rcases hm with h1 | h1 | h1 <;> rw [h1] <;> decide

/-- Claim C6: for a low-benefit category, get_progressive_levels is the
singleton list of "none", the initial decision is level "none" for every
timeout and difficulty, and the escalation step never changes the level. -/
theorem claim_C6_low_never_escalates (instr err cur : String) (t : ℚ) (d : String)
    (h : classify_task instr ∈ LOW_BENEFIT_CATEGORIES) :
    get_progressive_levels instr err = ["none"] ∧
    (decide_context_level instr t d).level = "none" ∧
    escalate_step instr err cur = cur := by
  refine ⟨?_, ?_, escalate_step_eq instr err cur⟩
  · rw [progressive_levels_eq, if_pos h]
  · rw [decide_low instr t d h]

/-- Witness for C6 at a scheduling instruction and an error containing an
escalation marker. -/
theorem claim_C6_witness :
    get_progressive_levels "schedule a meeting" "bash: foo: command not found" = ["none"] ∧
    (decide_context_level "schedule a meeting" 300 "medium").level = "none" ∧
    escalate_step "schedule a meeting" "bash: foo: command not found" "none" = "none" :=
  claim_C6_low_never_escalates "schedule a meeting" "bash: foo: command not found" "none"
    300 "medium" (by decide)

/-- Counterexample to C7 as stated: a non-low-benefit instruction and an error
text matching the case-insensitive "command not found" marker for which the
escalation step leaves the level at "none" instead of advancing one step to
"minimal": get_progressive_levels recomputes the decision at the default
timeout, obtains level "full", hence a singleton progressive list, and the
escalation block requires a list of length greater than one. -/
theorem claim_C7_counterexample :
    classify_task "crack the password hash" ∉ LOW_BENEFIT_CATEGORIES ∧
    has_help_marker "bash: foo: command not found" = true ∧
    escalate_step "crack the password hash" "bash: foo: command not found" "none" = "none" ∧
    advance_one "none" = "minimal" ∧ ("none" : String) ≠ "minimal" :=
  ⟨by decide, by decide, escalate_step_eq _ _ _, by decide, by decide⟩

/-- Claim C7 as amended: for every non-low-benefit task and failed turn the
context level for the next turn always equals the current level - both when no
marker matches and when one does - because the progressive-level list computed
from a fresh default-timeout decision is the singleton of "full" for every
non-low-benefit category, and the escalation block requires a longer list. -/
theorem claim_C7_amended (instr err cur : String)
    (h : classify_task instr ∉ LOW_BENEFIT_CATEGORIES) :
    get_progressive_levels instr err = ["full"] ∧
    escalate_step instr err cur = cur := by
  refine ⟨?_, escalate_step_eq instr err cur⟩
  rw [progressive_levels_eq, if_neg h]

/-- Witness for the amended C7 at a security instruction with a marker error. -/
theorem claim_C7_witness :
    get_progressive_levels "crack the password hash" "unknown option" = ["full"] ∧
    escalate_step "crack the password hash" "unknown option" "minimal" = "minimal" :=
  claim_C7_amended "crack the password hash" "unknown option" "minimal" (by decide)

/-- Claim C10: on the low-benefit path the decision reports historical benefit
0 and time pressure "low" for every timeout and difficulty, while the
historical-benefit table itself scores every category that classify_task can
place in the low-benefit set at 5/100 - the estimators are bypassed. -/
theorem claim_C10_low_path_constants (instr : String) (t : ℚ) (d : String)
    (h : classify_task instr ∈ LOW_BENEFIT_CATEGORIES) :
    (decide_context_level instr t d).historical_benefit = 0 ∧
    (decide_context_level instr t d).time_pressure = "low" ∧
    get_historical_benefit (classify_task instr) = 5/100 := by
  rw [decide_low instr t d h]
  refine ⟨rfl, rfl, ?_⟩
  have hm := classify_task_mem instr
  simp only [CLASSIFY_OUTPUTS, List.mem_cons, List.not_mem_nil, or_false] at hm
  rcases hm with h1 | h1 | h1 | h1 | h1 | h1 | h1 | h1 | h1 <;> rw [h1] <;>
    first
    | rfl
    | (rw [h1] at h; exact absurd h (by decide))

/-- Witness for C10 at a logic-puzzle instruction with a short timeout and
hard difficulty, exercising the path that ignores both estimators. -/
theorem claim_C10_witness :
    (decide_context_level "solve the logic puzzle" 45 "hard").historical_benefit = 0 ∧
    (decide_context_level "solve the logic puzzle" 45 "hard").time_pressure = "low" ∧
    get_historical_benefit (classify_task "solve the logic puzzle") = 5/100 :=
  claim_C10_low_path_constants "solve the logic puzzle" 45 "hard" (by decide)

/-- Claim C3: assess_time_pressure is exactly the spec's composition - expected
duration is the base-duration table entry times the difficulty multiplier
(defaults 60 and 1 for unknown keys), the ratio is timeout over expected, and
the tier is the fixed threshold ladder evaluated in the spec's order. -/
theorem claim_C3_pressure_refines_spec (t : ℚ) (c d : String) :
    assess_time_pressure t c d =
      pressure_ladder (t / (base_duration_of c * difficulty_mult_of d)) ∧
    (c ∉ BASE_DURATION_KEYS → base_duration_of c = 60) ∧
    (d ∉ ["easy", "medium", "hard"] → difficulty_mult_of d = 1) := by
  refine ⟨rfl, ?_, ?_⟩
  · intro hc
    apply lookupD_default
    intro p hp
    fin_cases hp <;> simp_all [BASE_DURATION_KEYS, eq_comm]
  · intro hd
    apply lookupD_default
    intro p hp
    fin_cases hp <;> simp_all [eq_comm]

/-- Witness for C3 combining the refinement equation at a concrete input with
the default for an unknown category. -/
theorem claim_C3_witness :
    assess_time_pressure 300 "security" "medium" =
      pressure_ladder (300 / (base_duration_of "security" * difficulty_mult_of "medium")) ∧
    base_duration_of "underwater-basket-weaving" = 60 :=
  ⟨(claim_C3_pressure_refines_spec 300 "security" "medium").1,
   (claim_C3_pressure_refines_spec 300 "underwater-basket-weaving" "medium").2.1 (by decide)⟩

/-- Claim C4: a decision at level "minimal" carries exactly the first selected
section (or the single default section "coding" when none were selected), a
decision at level "full" carries all selected sections (or the default), and
in both cases the section list is non-empty. -/
theorem claim_C4_sections_nonempty (instr : String) (t : ℚ) (d : String) :
    ((decide_context_level instr t d).level = "minimal" →
      (decide_context_level instr t d).sections =
        (if (select_relevant_sections instr (classify_task instr)).isEmpty then ["coding"]
         else (select_relevant_sections instr (classify_task instr)).take 1)) ∧
    ((decide_context_level instr t d).level = "full" →
      (decide_context_level instr t d).sections =
        (if (select_relevant_sections instr (classify_task instr)).isEmpty then ["coding"]
         else select_relevant_sections instr (classify_task instr))) ∧
    ((decide_context_level instr t d).level = "minimal" ∨
        (decide_context_level instr t d).level = "full" →
      (decide_context_level instr t d).sections ≠ []) := by
  simp only [decide_context_level]
  repeat' split
  all_goals refine ⟨fun h1 => ?_, fun h2 => ?_, fun h3 => ?_⟩
  all_goals simp_all

/-- Witness for C4 at a high-pressure security instruction whose decision is
level "minimal" with the single section "security". -/
theorem claim_C4_witness :
    (decide_context_level "crack the password hash" 160 "medium").sections = ["security"] := by
  have hc : classify_task "crack the password hash" = "security" := by decide
  have hp : assess_time_pressure 160 "security" "medium" = "high" := by
    simp only [assess_time_pressure, lookupD, String.reduceBEq, reduceIte]
    norm_num
  have hlev : (decide_context_level "crack the password hash" 160 "medium").level = "minimal" := by
    simp only [decide_context_level, hc, hp]
    rw [if_neg (by decide : ¬ ("security" : String) ∈ LOW_BENEFIT_CATEGORIES)]
    rw [if_neg (by
      simp only [get_historical_benefit, HISTORICAL_BENEFIT, lookupD, String.reduceBEq, reduceIte]
      norm_num)]
    rw [if_neg (by decide : ¬ ("high" : String) = "critical")]
    rw [if_pos (by simp)]
  have h := (claim_C4_sections_nonempty "crack the password hash" 160 "medium").1 hlev
  rw [h, hc]
  decide

/-- Counterexample to C8 as stated: a turn whose combined output is exactly
"Permission denied" with exit code zero is classified a success by the loop -
"Permission denied" is not in the error_patterns list of _looks_like_error -
while the claim's marker set makes it a failure. -/
theorem claim_C8_counterexample :
    observe_success 0 "Permission denied" "" = true ∧
    pyContains ("Permission denied" ++ "") "Permission denied" = true := by
  constructor <;> decide

/-- Claim C8 as amended: the loop classifies a turn as a success exactly when
the exit code is zero and the turn's stdout contains none of the nine
error_patterns markers (error:/Error:/ERROR:, failed/Failed/FAILED, the
Traceback header, "command not found", "No such file or directory"); stderr is
not examined and "Permission denied" is not a marker. -/
theorem claim_C8_amended (exit_code : ℤ) (stdout stderr : String) :
    observe_success exit_code stdout stderr = true ↔
      (exit_code = 0 ∧ ∀ p ∈ error_patterns, pyContains stdout p = false) := by
  simp [observe_success, looks_like_error, List.any_eq_true]

/-- Witness for the amended C8 at a clean observation. -/
theorem claim_C8_witness : observe_success 0 "2 files changed" "" = true :=
  (claim_C8_amended 0 "2 files changed" "").mpr ⟨rfl, by decide⟩

/-- Counterexample to C9 as stated: a response consisting of one delimited
block whose content is only whitespace - hence has no internal newline - yields
no command at all (Python skips falsy stripped blocks), not one atomic command
equal to the trimmed (empty) content. -/
theorem claim_C9_counterexample :
    xmlBlocks "<bash>  </bash>".data = [[]] ∧
    (([] : List Char).any (fun c => c == '\n')) = false ∧
    extract_bash_commands "<bash>  </bash>" = [] := by
  refine ⟨?_, ?_, ?_⟩ <;> decide

/-- Claim C9 as amended: for a delimited block whose trimmed content is
non-empty and contains the heredoc terminator token or no internal newline,
the block is processed into exactly the one atomic command equal to its
trimmed content; whenever the delimited tier produces any command the
extractor returns exactly that tier's commands (the fenced and prompt-line
tiers are never consulted); hence a response whose block list is exactly one
such newline-free block extracts to exactly that one command. -/
theorem claim_C9_atomic_block (text : String) (b : List Char) :
    (b ∈ xmlBlocks text.data → pyStripChars b ≠ [] →
      (containsAux eofToken (pyStripChars b) ||
        !((pyStripChars b).any (fun c => c == '\n'))) = true →
      processXmlBlock b = [pyStripChars b]) ∧
    (((xmlBlocks text.data).map processXmlBlock).flatten ≠ [] →
      extract_bash_commands text =
        (((xmlBlocks text.data).map processXmlBlock).flatten).map
          (fun l => (⟨l⟩ : String))) ∧
    (xmlBlocks text.data = [b] → pyStripChars b ≠ [] →
      ((pyStripChars b).any (fun c => c == '\n')) = false →
      extract_bash_commands text = [(⟨pyStripChars b⟩ : String)]) := by
  have hproc : pyStripChars b ≠ [] →
      (containsAux eofToken (pyStripChars b) ||
        !((pyStripChars b).any (fun c => c == '\n'))) = true →
      processXmlBlock b = [pyStripChars b] := by
    intro hne hcond
    simp only [processXmlBlock]
    rw [if_neg (by simpa using hne), if_pos hcond]
  have htier : ((xmlBlocks text.data).map processXmlBlock).flatten ≠ [] →
      extract_bash_commands text =
        (((xmlBlocks text.data).map processXmlBlock).flatten).map
          (fun l => (⟨l⟩ : String)) := by
    intro hne
    simp only [extract_bash_commands]
    rw [if_pos (by simpa using hne)]
  refine ⟨fun _ => hproc, htier, ?_⟩
  intro hxml hne hnl
  have hb := hproc hne (by rw [hnl]; simp)
  have hflat : ((xmlBlocks text.data).map processXmlBlock).flatten = [pyStripChars b] := by
    rw [hxml]
    simp [hb]
  rw [htier (by rw [hflat]; simp), hflat]
  simp

/-- Witness for the amended C9: one delimited single-line block extracts to the
one atomic command equal to its trimmed content. -/
theorem claim_C9_witness :
    extract_bash_commands "run this <bash>ls -la</bash> now" =
      [(⟨pyStripChars "ls -la".data⟩ : String)] :=
  (claim_C9_atomic_block "run this <bash>ls -la</bash> now" "ls -la".data).2.2
    (by decide) (by decide) (by decide)
